import Mathlib

set_option maxRecDepth 4000

/-! Shallow embedding of the avrdude micronucleus bootloader driver
(micronucleus.c): the per-session data model, the V1/V2 info-block resolvers,
the firmware patch engine, the paged-write protocol, the erase/reconnect
sequencer, the discovery filter and the signature read-back, together with
theorems about these operations.

Conventions: C integers are modelled as Nat with explicit reduction mod the
type's size where the C code can wrap (uint8_t: mod 256, uint16_t: mod 65536,
uint32_t: mod 2^32); C int expressions that may be negative are modelled as
Int, with the C bitwise and against a low mask rendered as the nonnegative
remainder (Int.emod).  Byte buffers are lists of byte values.  The USB
transport is modelled as responsive: control transfers succeed, and operations
record their transport side effects in an event list; where a claim concerns
transport failures the failing results are passed in as parameters. -/

/-- Byte access in a uint8_t array: entries are byte values, so reads are
reduced mod 256. -/
def byteAt (buffer : List Nat) (i : Nat) : Nat := buffer.getD i 0 % 256

/-- The driver's per-session state, struct pdata of micronucleus.c.  uint16_t
fields hold values below 65536 and uint8_t fields values below 256; the USB
handle and the wait options play no role in the modelled operations and are
omitted. -/
structure Pdata where
  major_version : Nat
  minor_version : Nat
  flash_size : Nat
  page_size : Nat
  write_sleep : Nat
  signature1 : Nat
  signature2 : Nat
  pages : Nat
  bootloader_start : Nat
  erase_sleep : Nat
  user_reset_vector : Nat
  write_last_page : Bool
  start_program : Bool
  deriving Repr, DecidableEq

/-- A freshly set-up session: mmt_malloc zero-initializes struct pdata. -/
def pdata0 : Pdata where
  major_version := 0
  minor_version := 0
  flash_size := 0
  page_size := 0
  write_sleep := 0
  signature1 := 0
  signature2 := 0
  pages := 0
  bootloader_start := 0
  erase_sleep := 0
  user_reset_vector := 0
  write_last_page := false
  start_program := false

/-- micronucleus_get_bootloader_info_v1, acting on a successfully received
4-byte info block.  (buffer[0] << 8) | buffer[1] equals buffer[0]*256 +
buffer[1] for byte values; pages, bootloader_start and erase_sleep are
uint16_t, hence the reductions mod 65536 (pages itself cannot exceed
flash_size, so its reduction is omitted). -/
def micronucleus_get_bootloader_info_v1 (p : Pdata) (buffer : List Nat) : Pdata :=
  let flash_size := byteAt buffer 0 * 256 + byteAt buffer 1
  let page_size := byteAt buffer 2
  let write_sleep := byteAt buffer 3 &&& 127
  let sigs :=
    if page_size = 128 then (0x94, 0x87)
    else if page_size = 64 then
      if flash_size > 4096 then (0x93, 0x0B) else (0x92, 0x06)
    else if page_size = 16 then (0x93, 0x15)
    else (0, 0)
  let pages := (flash_size + page_size - 1) / page_size
  let bootloader_start := pages * page_size % 65536
  let erase_sleep := write_sleep * pages % 65536
  { p with
    flash_size := flash_size, page_size := page_size, write_sleep := write_sleep,
    signature1 := sigs.1, signature2 := sigs.2, pages := pages,
    bootloader_start := bootloader_start, erase_sleep := erase_sleep }

/-- micronucleus_get_bootloader_info_v2, acting on a successfully received
6-byte info block.  If bit 7 of byte 4 is set the uint16_t erase_sleep is
divided by four. -/
def micronucleus_get_bootloader_info_v2 (p : Pdata) (buffer : List Nat) : Pdata :=
  let flash_size := byteAt buffer 0 * 256 + byteAt buffer 1
  let page_size := byteAt buffer 2
  let write_sleep := (byteAt buffer 3 &&& 127) + 2
  let signature1 := byteAt buffer 4
  let signature2 := byteAt buffer 5
  let pages := (flash_size + page_size - 1) / page_size
  let bootloader_start := pages * page_size % 65536
  let erase_sleep0 := write_sleep * pages % 65536
  let erase_sleep := if byteAt buffer 3 &&& 128 ≠ 0 then erase_sleep0 / 4 else erase_sleep0
  { p with
    flash_size := flash_size, page_size := page_size, write_sleep := write_sleep,
    signature1 := signature1, signature2 := signature2, pages := pages,
    bootloader_start := bootloader_start, erase_sleep := erase_sleep }

/-- The instruction-decode rule used by micronucleus_patch_reset_vector, stated
at an arbitrary word address a (the source applies it at word address 0): the
long jump 0x940C targets the following word, and a relative jump 0xCxxx with
12-bit offset field targets a + offset + 1. -/
def decode_branch (a word0 word1 : Nat) : Option Nat :=
  if word0 = 0x940C then some word1
  else if word0 &&& 0xF000 = 0xC000 then some (a + (word0 &&& 0x0FFF) + 1)
  else none

/-- micronucleus_patch_reset_vector: capture the user reset vector from the
first two flash words of page 0 and patch in a jump to the bootloader; none
models the -1 return when the first word is not a branch instruction.
(buffer[1] << 8) | buffer[0] equals buffer[1]*256 + buffer[0] for bytes;
0xC000 | x equals 0xC000 + x for x < 0x1000, and the C int expression
(bootloader_start/2 - 1) & 0x0FFF is the nonnegative remainder mod 4096;
(uint8_t)(data >> 0) is data % 256 and (uint8_t)(data >> 8) is
data / 256 % 256. -/
def micronucleus_patch_reset_vector (p : Pdata) (buffer : List Nat) :
    Option (Pdata × List Nat) :=
  let word0 := byteAt buffer 1 * 256 + byteAt buffer 0
  let word1 := byteAt buffer 3 * 256 + byteAt buffer 2
  let vector :=
    if word0 = 0x940C then some word1
    else if word0 &&& 0xF000 = 0xC000 then some ((word0 &&& 0x0FFF) + 1)
    else none
  match vector with
  | none => none
  | some v =>
    let p1 := { p with user_reset_vector := v }
    if p1.bootloader_start > 0x2000 then
      let data := 0x940C
      some (p1, (((buffer.set 0 (data % 256)).set 1 (data / 256 % 256)).set 2
        (p1.bootloader_start % 256)).set 3 (p1.bootloader_start / 256 % 256))
    else
      let data := 0xC000 + (((p1.bootloader_start : Int) / 2 - 1) % 4096).toNat
      some (p1, (buffer.set 0 (data % 256)).set 1 (data / 256 % 256))

/-- micronucleus_patch_user_vector: write, at the byte offset
user_reset_addr - address within the final page, a jump back to the captured
user reset vector.  user_reset_addr and address are uint16_t locals (wrap mod
65536); the C int offset expression (user_reset_vector - user_reset_addr/2 - 1)
& 0x0FFF is the nonnegative remainder mod 4096.  A negative C byte index
(possible only for page_size < 4 or page_size > bootloader_start, geometries
on which the C code indexes out of bounds) has no Lean counterpart;
List.set ignores out-of-range indices. -/
def micronucleus_patch_user_vector (p : Pdata) (buffer : List Nat) : List Nat :=
  let user_reset_addr := (p.bootloader_start + 65536 - 4) % 65536
  let address := (p.bootloader_start + 65536 - p.page_size) % 65536
  let idx := user_reset_addr - address
  if user_reset_addr > 0x2000 then
    let data := 0x940C
    (((buffer.set idx (data % 256)).set (idx + 1) (data / 256 % 256)).set (idx + 2)
      (p.user_reset_vector % 256)).set (idx + 3) (p.user_reset_vector / 256 % 256)
  else
    let half : Nat := user_reset_addr / 2
    let data := 0xC000 + (((p.user_reset_vector : Int) - (half : Int) - 1) % 4096).toNat
    (buffer.set idx (data % 256)).set (idx + 1) (data / 256 % 256)

/-- Transport-level side effects of the paged-write operations.  A transfer
records the address, the size argument, the buffer handed to
micronucleus_write_page and the buffer actually transmitted (after patching);
the V1 single control message and the V2 announce-plus-word-program sequence
are abstracted into one event. -/
inductive UsbEvent where
  | xfer (address size : Nat) (handed sent : List Nat)
  | startCmd
  deriving Repr, DecidableEq

/-- The last-page address bootloader_start - page_size as the C code computes
it: int subtraction converted to the uint32_t address parameter. -/
def lastPageThreshold (p : Pdata) : Nat :=
  (((p.bootloader_start : Int) - (p.page_size : Int)) % 4294967296).toNat

/-- micronucleus_write_page over a responsive transport: the control transfers
succeed, so the only failure left is an invalid reset vector (V2, address 0).
Returns (result, new session state, transport events). -/
def micronucleus_write_page (p : Pdata) (address : Nat) (buffer : List Nat)
    (size : Nat) : Int × Pdata × List UsbEvent :=
  if address = 0 then
    if 2 ≤ p.major_version then
      match micronucleus_patch_reset_vector p buffer with
      | none => (-1, p, [])
      | some pr =>
        let p2 := { pr.1 with write_last_page := true, start_program := true }
        (0, p2, [UsbEvent.xfer address size buffer pr.2])
    else
      let p2 := { p with write_last_page := true, start_program := true }
      (0, p2, [UsbEvent.xfer address size buffer buffer])
  else if lastPageThreshold p ≤ address then
    let sent := if 2 ≤ p.major_version then micronucleus_patch_user_vector p buffer else buffer
    let p2 := { p with write_last_page := false }
    (0, p2, [UsbEvent.xfer address size buffer sent])
  else
    (0, p, [UsbEvent.xfer address size buffer buffer])

/-- micronucleus_powerdown: flush the deferred last page, then issue the start
command; the results of the inner operations are ignored (void context). -/
def micronucleus_powerdown (p : Pdata) : Pdata × List UsbEvent :=
  let step1 :=
    if p.write_last_page then
      let p1 := { p with write_last_page := false }
      let buffer := List.replicate p1.page_size 0xFF
      let r := micronucleus_write_page p1 (lastPageThreshold p1) buffer p1.page_size
      (r.2.1, r.2.2)
    else (p, [])
  if step1.1.start_program then
    ({ step1.1 with start_program := false }, step1.2 ++ [UsbEvent.startCmd])
  else step1

/-- The while loop of micronucleus_paged_write.  fuel bounds the number of
iterations: each iteration consumes min n page_size bytes, which is positive
when page_size > 0, so fuel = n suffices; for page_size = 0 the C loop does
not terminate and the model is not used. -/
def micronucleus_paged_write_loop (fuel : Nat) (p : Pdata) (mem : List Nat)
    (addr n : Nat) : Int × Pdata × List UsbEvent :=
  match fuel with
  | 0 => (0, p, [])
  | fuel + 1 =>
    if n = 0 then (0, p, [])
    else
      let chunk := min n p.page_size
      let page_buffer := (mem.drop addr).take chunk ++
        List.replicate (p.page_size - chunk) 0xFF
      let r := micronucleus_write_page p addr page_buffer p.page_size
      if r.1 < 0 then r
      else
        let rest := micronucleus_paged_write_loop fuel r.2.1 mem (addr + chunk) (n - chunk)
        (rest.1, rest.2.1, r.2.2 ++ rest.2.2)

/-- micronucleus_paged_write on flash memory (the only supported kind): bounds
checks, then the chunking loop over the device-reported page size.  addr and
n_bytes are unsigned int, so the sum in the flash-size check wraps mod
2^32. -/
def micronucleus_paged_write (p : Pdata) (mem : List Nat)
    (page_size addr n_bytes : Nat) : Int × Pdata × List UsbEvent :=
  if n_bytes > page_size then (-1, p, [])
  else if (addr + n_bytes) % 4294967296 > p.flash_size then (-1, p, [])
  else micronucleus_paged_write_loop n_bytes p mem addr n_bytes

/-- Total number of payload bytes handed to the page-write routine. -/
def handedBytes : List UsbEvent → Nat
  | [] => 0
  | UsbEvent.xfer _ _ handed _ :: es => handed.length + handedBytes es
  | UsbEvent.startCmd :: es => handedBytes es

/-- Transport side effects of the erase/reconnect sequencer. -/
inductive EraseEvent where
  | eraseCmd
  | checkConn
  | reopen (attempt : Nat)
  | delayMs (ms : Nat)
  deriving Repr, DecidableEq

/-- The reconnect loop: up to `remaining` further usb_open attempts, the next
one having index i; a failed attempt is followed by the fixed
MICRONUCLEUS_CONNECT_WAIT = 100 ms delay. -/
def micronucleus_reconnect_loop (openOk : Nat → Bool) :
    Nat → Nat → Int × List EraseEvent
  | 0, _ => (-1, [])
  | remaining + 1, i =>
    if openOk i then (0, [EraseEvent.reopen i])
    else
      let r := micronucleus_reconnect_loop openOk remaining (i + 1)
      (r.1, EraseEvent.reopen i :: EraseEvent.delayMs 100 :: r.2)

/-- micronucleus_reconnect: close the handle and reopen the same usb_device up
to 25 times. -/
def micronucleus_reconnect (openOk : Nat → Bool) : Int × List EraseEvent :=
  micronucleus_reconnect_loop openOk 25 0

/-- micronucleus_erase_device, parameterized over the transport outcomes:
eraseResult is the usb_control_msg result of the erase command, checkResult the
result of the micronucleus_check_connection info probe, and openOk the outcome
of the i-th usb_open during reconnection.  -EIO = -5 and -EPIPE = -32 (errno
values). -/
def micronucleus_erase_device (p : Pdata) (eraseResult checkResult : Int)
    (openOk : Nat → Bool) : Int × List EraseEvent :=
  if eraseResult < 0 ∧ eraseResult ≠ -5 ∧ eraseResult ≠ -32 then
    (eraseResult, [EraseEvent.eraseCmd])
  else
    let tail :=
      if checkResult < 0 then
        let r := micronucleus_reconnect openOk
        (r.1, EraseEvent.checkConn :: r.2)
      else (0, [EraseEvent.checkConn])
    (tail.1, EraseEvent.eraseCmd :: EraseEvent.delayMs p.erase_sleep :: tail.2)

/-- A USB device as seen by the discovery scan: descriptor identifiers, the
bcdDevice version word, the bus and device names, and whether the
responsiveness probe (open, info request, close) succeeds. -/
structure UsbCandidate where
  idVendor : Nat
  idProduct : Nat
  bcdDevice : Nat
  busDirname : List Char
  filename : List Char
  responsive : Bool
  deriving Repr, DecidableEq

def MICRONUCLEUS_VID : Nat := 0x16D0

def MICRONUCLEUS_PID : Nat := 0x0753

def MICRONUCLEUS_MAX_MAJOR_VERSION : Nat := 2

/-- Parsing of the -P port option in micronucleus_open: "usb" means no
locator; a string starting with "usb:" is split at the next colon into bus and
device names; any other form, or a missing device part, is an invalid option
(none). -/
def micronucleus_parse_port (port : List Char) : Option (Option (List Char × List Char)) :=
  if port = [ 'u', 's', 'b' ] then some none
  else
    match port with
    | 'u' :: 's' :: 'b' :: ':' :: rest =>
      let bus := rest.takeWhile (fun ch => ch ≠ ':')
      match rest.dropWhile (fun ch => ch ≠ ':') with
      | [] => none
      | _ :: dev => some (some (bus, dev))
    | _ => none

/-- The discovery loop body for one candidate: vendor/product match,
responsiveness probe, locator filter, then the version check decide whether
this candidate is opened and retained; major version is
(uint8_t)(bcdDevice >> 8). -/
def micronucleus_candidate_retained (vid pid : Nat)
    (locator : Option (List Char × List Char)) (c : UsbCandidate) : Bool :=
  c.idVendor == vid && c.idProduct == pid && c.responsive &&
    (match locator with
     | none => true
     | some ld => c.busDirname == ld.1 && c.filename == ld.2) &&
    decide (c.bcdDevice / 256 % 256 ≤ MICRONUCLEUS_MAX_MAJOR_VERSION)

/-- The scan over the flattened bus/device list retains the first candidate
that passes all checks and keeps scanning past every rejected one. -/
def micronucleus_scan (vid pid : Nat) (locator : Option (List Char × List Char))
    (devices : List UsbCandidate) : Option UsbCandidate :=
  devices.find? (micronucleus_candidate_retained vid pid locator)

/-- micronucleus_read_sig_bytes: mem is the signature memory buffer (mem->size
bytes).  The session state is only read, never written, so it is not
returned. -/
def micronucleus_read_sig_bytes (p : Pdata) (mem : List Nat) : Int × List Nat :=
  if mem.length < 3 then (-1, mem)
  else (0, ((mem.set 0 0x1E).set 1 p.signature1).set 2 p.signature2)

/-- The bootloader geometry portion of the session state: everything the Info
Resolver computes at initialization. -/
def pdataGeometry (p : Pdata) : Nat × Nat × Nat × Nat × Nat × Nat × Nat × Nat :=
  (p.flash_size, p.page_size, p.write_sleep, p.signature1, p.signature2,
   p.pages, p.bootloader_start, p.erase_sleep)

/-! Helper lemmas: bit masks, byte access, geometry preservation. -/

set_option maxRecDepth 4000 in
theorem mask_top_chunk : ∀ hi < 16, ∀ lo < 256,
    (0xC000 + (hi * 256 + lo)) &&& 0xF000 = 0xC000 := by decide

theorem mask_top (off : Nat) (h : off < 4096) :
    (0xC000 + off) &&& 0xF000 = 0xC000 := by
  have h2 : off / 256 * 256 + off % 256 = off := by omega
  have h3 := mask_top_chunk (off / 256) (by omega) (off % 256) (by omega)
  rwa [h2] at h3

theorem mask_low (x : Nat) : x &&& 0x0FFF = x % 4096 := by
  have h : (0x0FFF : Nat) = 2 ^ 12 - 1 := by norm_num
  rw [h, Nat.and_pow_two_sub_one_eq_mod]

theorem getD_set_self (l : List Nat) (i x d : Nat) (h : i < l.length) :
    (l.set i x).getD i d = x := by
  rw [List.getD_eq_getElem?_getD, List.getElem?_set_self (by simpa using h)]
  rfl

theorem getD_set_ne (l : List Nat) (i j x d : Nat) (h : i ≠ j) :
    (l.set i x).getD j d = l.getD j d := by
  rw [List.getD_eq_getElem?_getD, List.getElem?_set_ne h, ← List.getD_eq_getElem?_getD]

theorem byteAt_out_of_range (l : List Nat) (i : Nat) (h : l.length ≤ i) :
    byteAt l i = 0 := by
  unfold byteAt
  rw [List.getD_eq_getElem?_getD, List.getElem?_eq_none (by simpa using h)]
  rfl

theorem micronucleus_patch_reset_vector_spec (p : Pdata) (buffer : List Nat)
    (pr : Pdata × List Nat) (h : micronucleus_patch_reset_vector p buffer = some pr) :
    pdataGeometry pr.1 = pdataGeometry p ∧ pr.2.length = buffer.length ∧
      pr.1.write_last_page = p.write_last_page ∧ pr.1.start_program = p.start_program := by
  unfold micronucleus_patch_reset_vector at h
  dsimp only at h
  split at h
  · exact absurd h (by simp)
  · split at h <;>
      (cases h; refine ⟨rfl, ?_, rfl, rfl⟩; simp [List.length_set])

theorem micronucleus_patch_user_vector_length (p : Pdata) (buffer : List Nat) :
    (micronucleus_patch_user_vector p buffer).length = buffer.length := by
  unfold micronucleus_patch_user_vector
  dsimp only
  split <;> simp [List.length_set]

theorem micronucleus_write_page_shape (p : Pdata) (address : Nat) (buffer : List Nat)
    (size : Nat) :
    micronucleus_write_page p address buffer size = (-1, p, []) ∨
    ∃ p2 sent, micronucleus_write_page p address buffer size =
        (0, p2, [UsbEvent.xfer address size buffer sent]) ∧
      pdataGeometry p2 = pdataGeometry p ∧ sent.length = buffer.length := by
  unfold micronucleus_write_page
  split
  · split
    · split
      · exact Or.inl rfl
      · rename_i pr hpr
        have h := micronucleus_patch_reset_vector_spec p buffer pr hpr
        exact Or.inr ⟨_, _, rfl, by simpa [pdataGeometry] using h.1, h.2.1⟩
    · exact Or.inr ⟨_, _, rfl, rfl, rfl⟩
  · split
    · refine Or.inr ⟨_, _, rfl, rfl, ?_⟩
      split
      · exact micronucleus_patch_user_vector_length p buffer
      · rfl
    · exact Or.inr ⟨_, _, rfl, rfl, rfl⟩

theorem micronucleus_write_page_geometry (p : Pdata) (address : Nat)
    (buffer : List Nat) (size : Nat) :
    pdataGeometry (micronucleus_write_page p address buffer size).2.1 = pdataGeometry p := by
  rcases micronucleus_write_page_shape p address buffer size with h | ⟨p2, sent, h, hg, _⟩ <;>
    rw [h]
  exact hg

theorem micronucleus_powerdown_geometry (p : Pdata) :
    pdataGeometry (micronucleus_powerdown p).1 = pdataGeometry p := by
  unfold micronucleus_powerdown
  dsimp only
  split
  · split
    · exact micronucleus_write_page_geometry _ _ _ _
    · exact micronucleus_write_page_geometry _ _ _ _
  · split <;> rfl

theorem micronucleus_paged_write_loop_geometry (fuel : Nat) :
    ∀ (p : Pdata) (mem : List Nat) (addr n : Nat),
      pdataGeometry (micronucleus_paged_write_loop fuel p mem addr n).2.1 = pdataGeometry p := by
  induction fuel with
  | zero => intro p mem addr n; rfl
  | succ fuel ih =>
    intro p mem addr n
    unfold micronucleus_paged_write_loop
    dsimp only
    split
    · rfl
    · split
      · exact micronucleus_write_page_geometry _ _ _ _
      · rw [ih]
        exact micronucleus_write_page_geometry _ _ _ _

theorem micronucleus_paged_write_geometry (p : Pdata) (mem : List Nat)
    (page_size addr n_bytes : Nat) :
    pdataGeometry (micronucleus_paged_write p mem page_size addr n_bytes).2.1 =
      pdataGeometry p := by
  unfold micronucleus_paged_write
  split
  · rfl
  · split
    · rfl
    · exact micronucleus_paged_write_loop_geometry _ _ _ _ _

/-! Claim C2: end-to-end V1 decode of the info block [0x10,0x00,0x40,0x02]. -/

/-- C2 as stated is false: the V1 info block [0x10,0x00,0x40,0x02] has
flash_size = 4096, which is not greater than 4096, so the signature guess
takes the ATtiny45 branch (0x92,0x06), not the claimed ATtiny85 branch
(0x93,0x0B). -/
theorem C2_counterexample :
    (micronucleus_get_bootloader_info_v1 pdata0 [0x10, 0x00, 0x40, 0x02]).signature1 ≠ 0x93 ∧
    (micronucleus_get_bootloader_info_v1 pdata0 [0x10, 0x00, 0x40, 0x02]).signature2 ≠ 0x0B := by
  decide

/-- C2 (amended): the V1 info block [0x10,0x00,0x40,0x02] resolves to
flash_size 4096, page_size 64, write_sleep 2, page_count 64, bootloader_start
4096 and the guessed signature (0x92,0x06) — the ATtiny45 branch of the
lookup rule, since flash_size = 4096 is not greater than 4096. -/
theorem C2_scenario_A :
    (micronucleus_get_bootloader_info_v1 pdata0 [0x10, 0x00, 0x40, 0x02]).flash_size = 4096 ∧
    (micronucleus_get_bootloader_info_v1 pdata0 [0x10, 0x00, 0x40, 0x02]).page_size = 64 ∧
    (micronucleus_get_bootloader_info_v1 pdata0 [0x10, 0x00, 0x40, 0x02]).write_sleep = 2 ∧
    (micronucleus_get_bootloader_info_v1 pdata0 [0x10, 0x00, 0x40, 0x02]).pages = 64 ∧
    (micronucleus_get_bootloader_info_v1 pdata0 [0x10, 0x00, 0x40, 0x02]).bootloader_start = 4096 ∧
    (micronucleus_get_bootloader_info_v1 pdata0 [0x10, 0x00, 0x40, 0x02]).signature1 = 0x92 ∧
    (micronucleus_get_bootloader_info_v1 pdata0 [0x10, 0x00, 0x40, 0x02]).signature2 = 0x06 := by
  decide

/-! Claim C3: geometry invariant of both resolvers, and immutability of the
geometry under all later operations. -/

/-- C3 as stated is false: the V1 info block [0xFF,0xFF,0x40,0x02] yields
page_count 1024 and page_size 64, whose product 65536 wraps in the uint16_t
bootloader_start field to 0. -/
theorem C3_counterexample :
    (micronucleus_get_bootloader_info_v1 pdata0 [0xFF, 0xFF, 0x40, 0x02]).pages = 1024 ∧
    (micronucleus_get_bootloader_info_v1 pdata0 [0xFF, 0xFF, 0x40, 0x02]).page_size = 64 ∧
    (micronucleus_get_bootloader_info_v1 pdata0 [0xFF, 0xFF, 0x40, 0x02]).bootloader_start ≠
      (micronucleus_get_bootloader_info_v1 pdata0 [0xFF, 0xFF, 0x40, 0x02]).pages *
        (micronucleus_get_bootloader_info_v1 pdata0 [0xFF, 0xFF, 0x40, 0x02]).page_size := by
  decide

/-- C3 (amended): for every info block decoded by the V1 or V2 resolver with a
nonzero page-size byte, page_count is the ceiling of flash_size / page_size
and bootloader_start is the uint16_t product page_count * page_size, i.e. the
product reduced mod 65536 (equal to the product whenever it is below 65536);
and the geometry fields are computed only there: page writes, powerdown and
paged writes all preserve every geometry field. -/
theorem C3_geometry_invariant (p0 : Pdata) (block : List Nat)
    (_hpage : byteAt block 2 ≠ 0) :
    (∀ q ∈ [micronucleus_get_bootloader_info_v1 p0 block,
            micronucleus_get_bootloader_info_v2 p0 block],
      q.pages = q.flash_size ⌈/⌉ q.page_size ∧
      q.bootloader_start = q.pages * q.page_size % 65536) ∧
    (∀ (q : Pdata) (addr : Nat) (buf : List Nat) (sz : Nat),
      pdataGeometry (micronucleus_write_page q addr buf sz).2.1 = pdataGeometry q) ∧
    (∀ q : Pdata, pdataGeometry (micronucleus_powerdown q).1 = pdataGeometry q) ∧
    (∀ (q : Pdata) (mem : List Nat) (ps addr n : Nat),
      pdataGeometry (micronucleus_paged_write q mem ps addr n).2.1 = pdataGeometry q) := by
  refine ⟨?_, micronucleus_write_page_geometry, micronucleus_powerdown_geometry,
    micronucleus_paged_write_geometry⟩
  intro q hq
  simp only [List.mem_cons, List.not_mem_nil, or_false] at hq
  rcases hq with hq | hq <;> subst hq <;>
    exact ⟨Nat.ceilDiv_eq_add_pred_div _ _ ▸ rfl, rfl⟩

theorem C3_witness :
    byteAt [0x10, 0x00, 0x40, 0x02] 2 ≠ 0 ∧
    ((∀ q ∈ [micronucleus_get_bootloader_info_v1 pdata0 [0x10, 0x00, 0x40, 0x02],
             micronucleus_get_bootloader_info_v2 pdata0 [0x10, 0x00, 0x40, 0x02]],
       q.pages = q.flash_size ⌈/⌉ q.page_size ∧
       q.bootloader_start = q.pages * q.page_size % 65536) ∧
     (∀ (q : Pdata) (addr : Nat) (buf : List Nat) (sz : Nat),
       pdataGeometry (micronucleus_write_page q addr buf sz).2.1 = pdataGeometry q) ∧
     (∀ q : Pdata, pdataGeometry (micronucleus_powerdown q).1 = pdataGeometry q) ∧
     (∀ (q : Pdata) (mem : List Nat) (ps addr n : Nat),
       pdataGeometry (micronucleus_paged_write q mem ps addr n).2.1 = pdataGeometry q)) :=
  ⟨by decide, C3_geometry_invariant pdata0 [0x10, 0x00, 0x40, 0x02] (by decide)⟩

/-! Claim C4: V2 timing derivation. -/

/-- C4 as stated is false: for the V2 info block [0xFF,0xFF,0x01,0x7F,0,0]
(page_count 65535, write_sleep 129, bit 7 of byte 4 clear) the uint16_t
erase_sleep wraps to 65407, which is not write_sleep * page_count = 8454015. -/
theorem C4_counterexample :
    (micronucleus_get_bootloader_info_v2 pdata0 [0xFF, 0xFF, 0x01, 0x7F, 0x00, 0x00]).erase_sleep ≠
      (micronucleus_get_bootloader_info_v2 pdata0 [0xFF, 0xFF, 0x01, 0x7F, 0x00, 0x00]).write_sleep *
        (micronucleus_get_bootloader_info_v2 pdata0 [0xFF, 0xFF, 0x01, 0x7F, 0x00, 0x00]).pages := by
  decide

/-- C4 (amended): for every 6-byte V2 info block with a nonzero page-size byte
(page size zero divides by zero in C), write_sleep = (low 7 bits of byte 4) +
2 and erase_sleep is the uint16_t product write_sleep * page_count, i.e.
reduced mod 65536 (equal to the product whenever it is below 65536), divided
by 4 with integer division when bit 7 of byte 4 is set; in particular for
byte 4 = 0x85 the resolver yields write_sleep = 7 and erase_sleep =
(7 * page_count) % 65536 / 4. -/
theorem C4_v2_timing (p0 : Pdata) (block : List Nat) (_hpage : byteAt block 2 ≠ 0) :
    (micronucleus_get_bootloader_info_v2 p0 block).write_sleep =
      (byteAt block 3 &&& 127) + 2 ∧
    (micronucleus_get_bootloader_info_v2 p0 block).erase_sleep =
      (if byteAt block 3 &&& 128 ≠ 0
       then (micronucleus_get_bootloader_info_v2 p0 block).write_sleep *
         (micronucleus_get_bootloader_info_v2 p0 block).pages % 65536 / 4
       else (micronucleus_get_bootloader_info_v2 p0 block).write_sleep *
         (micronucleus_get_bootloader_info_v2 p0 block).pages % 65536) ∧
    (byteAt block 3 = 0x85 →
      (micronucleus_get_bootloader_info_v2 p0 block).write_sleep = 7 ∧
      (micronucleus_get_bootloader_info_v2 p0 block).erase_sleep =
        7 * (micronucleus_get_bootloader_info_v2 p0 block).pages % 65536 / 4) := by
  refine ⟨rfl, rfl, ?_⟩
  intro h
  have h5 : (133 &&& 127 : Nat) = 5 := by decide
  constructor <;> simp [micronucleus_get_bootloader_info_v2, h, h5]

theorem C4_witness :
    byteAt [0x10, 0x00, 0x40, 0x85, 0xAA, 0xBB] 2 ≠ 0 ∧
    ((micronucleus_get_bootloader_info_v2 pdata0 [0x10, 0x00, 0x40, 0x85, 0xAA, 0xBB]).write_sleep =
      (byteAt [0x10, 0x00, 0x40, 0x85, 0xAA, 0xBB] 3 &&& 127) + 2 ∧
    (micronucleus_get_bootloader_info_v2 pdata0 [0x10, 0x00, 0x40, 0x85, 0xAA, 0xBB]).erase_sleep =
      (if byteAt [0x10, 0x00, 0x40, 0x85, 0xAA, 0xBB] 3 &&& 128 ≠ 0
       then (micronucleus_get_bootloader_info_v2 pdata0 [0x10, 0x00, 0x40, 0x85, 0xAA, 0xBB]).write_sleep *
         (micronucleus_get_bootloader_info_v2 pdata0 [0x10, 0x00, 0x40, 0x85, 0xAA, 0xBB]).pages % 65536 / 4
       else (micronucleus_get_bootloader_info_v2 pdata0 [0x10, 0x00, 0x40, 0x85, 0xAA, 0xBB]).write_sleep *
         (micronucleus_get_bootloader_info_v2 pdata0 [0x10, 0x00, 0x40, 0x85, 0xAA, 0xBB]).pages % 65536) ∧
    (byteAt [0x10, 0x00, 0x40, 0x85, 0xAA, 0xBB] 3 = 0x85 →
      (micronucleus_get_bootloader_info_v2 pdata0 [0x10, 0x00, 0x40, 0x85, 0xAA, 0xBB]).write_sleep = 7 ∧
      (micronucleus_get_bootloader_info_v2 pdata0 [0x10, 0x00, 0x40, 0x85, 0xAA, 0xBB]).erase_sleep =
        7 * (micronucleus_get_bootloader_info_v2 pdata0 [0x10, 0x00, 0x40, 0x85, 0xAA, 0xBB]).pages % 65536 / 4)) :=
  ⟨by decide, C4_v2_timing pdata0 [0x10, 0x00, 0x40, 0x85, 0xAA, 0xBB] (by decide)⟩

/-! Claim C6: bounds rejection of paged_write. -/

def pC6 : Pdata :=
  { pdata0 with
      major_version := 1, page_size := 4, flash_size := 16,
      bootloader_start := 16, pages := 4 }

/-- C6 as stated is false: addr and n_bytes are unsigned int in C, so the
flash-size check compares the sum wrapped mod 2^32.  At addr = 0xFFFFFFFF,
n_bytes = 1 the wrapped sum is 0, the check passes although the mathematical
address + size (2^32) exceeds the 16-byte flash size, the call succeeds and a
transport request is issued. -/
theorem C6_counterexample :
    0xFFFFFFFF + 1 > pC6.flash_size ∧ ¬(1 : Nat) > 4 ∧
    (micronucleus_paged_write pC6 (List.replicate 16 7) 4 0xFFFFFFFF 1).1 = 0 ∧
    (micronucleus_paged_write pC6 (List.replicate 16 7) 4 0xFFFFFFFF 1).2.2 ≠ [] := by
  decide

/-- C6 (amended): a flash paged_write whose size exceeds the caller's page
size, or whose unsigned 32-bit sum (address + size) mod 2^32 exceeds the
session's flash size — addr and n_bytes are unsigned int, so the C check
compares the wrapped sum, equal to address + size whenever that fits in 32
bits — returns the sizing error -1, issues no transport request, and leaves
the whole session state (in particular the flags and the captured reset
vector) unchanged. -/
theorem C6_bounds_rejection (p : Pdata) (mem : List Nat) (page_size addr n_bytes : Nat)
    (h : n_bytes > page_size ∨ (addr + n_bytes) % 4294967296 > p.flash_size) :
    micronucleus_paged_write p mem page_size addr n_bytes = (-1, p, []) := by
  unfold micronucleus_paged_write
  rcases h with h | h
  · rw [if_pos h]
  · by_cases h2 : n_bytes > page_size
    · rw [if_pos h2]
    · rw [if_neg h2, if_pos h]

theorem C6_witness :
    ((10 > 4 ∨ (0 + 10) % 4294967296 > pdata0.flash_size) ∧
      micronucleus_paged_write pdata0 [] 4 0 10 = (-1, pdata0, [])) :=
  ⟨Or.inl (by decide), C6_bounds_rejection pdata0 [] 4 0 10 (Or.inl (by decide))⟩

/-! Claim C10: signature read-back. -/

/-- C10: read_sig_bytes fails with -1 and writes nothing when the destination
memory holds fewer than 3 bytes; otherwise it succeeds and writes exactly the
three bytes 0x1E, signature1, signature2 into the first three positions,
leaving the rest of the buffer unchanged (the session state is only read, as
the model's type shows). -/
theorem C10_read_signature (p : Pdata) (mem : List Nat) :
    (mem.length < 3 → micronucleus_read_sig_bytes p mem = (-1, mem)) ∧
    (3 ≤ mem.length →
      (micronucleus_read_sig_bytes p mem).1 = 0 ∧
      (micronucleus_read_sig_bytes p mem).2.getD 0 0 = 0x1E ∧
      (micronucleus_read_sig_bytes p mem).2.getD 1 0 = p.signature1 ∧
      (micronucleus_read_sig_bytes p mem).2.getD 2 0 = p.signature2 ∧
      (micronucleus_read_sig_bytes p mem).2.length = mem.length ∧
      ∀ i, 3 ≤ i → (micronucleus_read_sig_bytes p mem).2.getD i 0 = mem.getD i 0) := by
  constructor
  · intro h
    unfold micronucleus_read_sig_bytes
    rw [if_pos h]
  · intro h
    have hnot : ¬mem.length < 3 := by omega
    unfold micronucleus_read_sig_bytes
    rw [if_neg hnot]
    refine ⟨rfl, ?_, ?_, ?_, by simp [List.length_set], ?_⟩
    · rw [getD_set_ne _ _ _ _ _ (by omega), getD_set_ne _ _ _ _ _ (by omega),
        getD_set_self _ _ _ _ (by omega)]
    · rw [getD_set_ne _ _ _ _ _ (by omega),
        getD_set_self _ _ _ _ (by simpa using by omega)]
    · rw [getD_set_self _ _ _ _ (by simp; omega)]
    · intro i hi
      rw [getD_set_ne _ _ _ _ _ (by omega), getD_set_ne _ _ _ _ _ (by omega),
        getD_set_ne _ _ _ _ _ (by omega)]

theorem C10_witness :
    (micronucleus_read_sig_bytes pdata0 [9, 9, 9, 9]).1 = 0 ∧
    (micronucleus_read_sig_bytes pdata0 [9, 9, 9, 9]).2.getD 0 0 = 0x1E ∧
    (micronucleus_read_sig_bytes pdata0 [9, 9, 9, 9]).2.getD 3 0 = 9 :=
  have h := (C10_read_signature pdata0 [9, 9, 9, 9]).2 (by decide)
  ⟨h.1, h.2.1, (h.2.2.2.2.2 3 (by decide)).trans (by decide)⟩

/-! Claim C9: locator filtering during discovery. -/

/-- C9: the locator string usb:001:004 parses into bus 001 and device 004; a
responsive, version-compatible candidate with matching vendor/product
identifiers on bus 001 device 005 is not retained, the scan continuing over
the remaining candidates unchanged; and any candidate a locator-filtered scan
retains matches the locator's bus and device names exactly. -/
theorem C9_locator_filtering (c : UsbCandidate) (rest : List UsbCandidate)
    (_hvid : c.idVendor = MICRONUCLEUS_VID) (_hpid : c.idProduct = MICRONUCLEUS_PID)
    (_hresp : c.responsive = true)
    (_hver : c.bcdDevice / 256 % 256 ≤ MICRONUCLEUS_MAX_MAJOR_VERSION)
    (_hbus : c.busDirname = [ '0', '0', '1' ]) (hdev : c.filename = [ '0', '0', '5' ]) :
    micronucleus_parse_port [ 'u', 's', 'b', ':', '0', '0', '1', ':', '0', '0', '4' ] =
      some (some ([ '0', '0', '1' ], [ '0', '0', '4' ])) ∧
    micronucleus_candidate_retained MICRONUCLEUS_VID MICRONUCLEUS_PID
      (some ([ '0', '0', '1' ], [ '0', '0', '4' ])) c = false ∧
    micronucleus_scan MICRONUCLEUS_VID MICRONUCLEUS_PID
      (some ([ '0', '0', '1' ], [ '0', '0', '4' ])) (c :: rest) =
      micronucleus_scan MICRONUCLEUS_VID MICRONUCLEUS_PID
        (some ([ '0', '0', '1' ], [ '0', '0', '4' ])) rest ∧
    (∀ (bus dev : List Char) (devices : List UsbCandidate) (r : UsbCandidate),
      micronucleus_scan MICRONUCLEUS_VID MICRONUCLEUS_PID (some (bus, dev)) devices =
        some r →
      r.busDirname = bus ∧ r.filename = dev) := by
  have hret : micronucleus_candidate_retained MICRONUCLEUS_VID MICRONUCLEUS_PID
      (some ([ '0', '0', '1' ], [ '0', '0', '4' ])) c = false := by
    simp [micronucleus_candidate_retained, hdev]
  refine ⟨by decide, hret, ?_, ?_⟩
  · unfold micronucleus_scan
    exact List.find?_cons_of_neg rest (by simp [hret])
  · intro bus dev devices r hfind
    have hsat := List.find?_some hfind
    simp only [micronucleus_candidate_retained, Bool.and_eq_true, beq_iff_eq,
      decide_eq_true_eq] at hsat
    exact ⟨hsat.1.2.1, hsat.1.2.2⟩

def candC9 : UsbCandidate where
  idVendor := 0x16D0
  idProduct := 0x0753
  bcdDevice := 0x0200
  busDirname := [ '0', '0', '1' ]
  filename := [ '0', '0', '5' ]
  responsive := true

theorem C9_witness :
    micronucleus_candidate_retained MICRONUCLEUS_VID MICRONUCLEUS_PID
      (some ([ '0', '0', '1' ], [ '0', '0', '4' ])) candC9 = false ∧
    micronucleus_scan MICRONUCLEUS_VID MICRONUCLEUS_PID
      (some ([ '0', '0', '1' ], [ '0', '0', '4' ])) [candC9] =
      micronucleus_scan MICRONUCLEUS_VID MICRONUCLEUS_PID
        (some ([ '0', '0', '1' ], [ '0', '0', '4' ])) [] :=
  have h := C9_locator_filtering candC9 [] rfl rfl rfl (by decide) rfl rfl
  ⟨h.2.1, h.2.2.1⟩

/-! Claim C8: erase error tolerance and bounded reconnection. -/

/-- The number of usb_open attempts recorded in an event trace. -/
def reopenCount (events : List EraseEvent) : Nat :=
  (events.filter fun e => match e with
    | EraseEvent.reopen _ => true
    | _ => false).length

theorem reconnect_loop_spec (openOk : Nat → Bool) :
    ∀ remaining i,
      reopenCount (micronucleus_reconnect_loop openOk remaining i).2 ≤ remaining ∧
      ((micronucleus_reconnect_loop openOk remaining i).1 < 0 ↔
        ∀ j < remaining, openOk (i + j) = false) ∧
      ((micronucleus_reconnect_loop openOk remaining i).1 < 0 →
        reopenCount (micronucleus_reconnect_loop openOk remaining i).2 = remaining) ∧
      (∀ ms, EraseEvent.delayMs ms ∈ (micronucleus_reconnect_loop openOk remaining i).2 →
        ms = 100) := by
  intro remaining
  induction remaining with
  | zero =>
    intro i
    refine ⟨by simp [micronucleus_reconnect_loop, reopenCount], ?_, ?_, ?_⟩
    · simp [micronucleus_reconnect_loop]
    · intro _; simp [micronucleus_reconnect_loop, reopenCount]
    · intro ms hms; simp [micronucleus_reconnect_loop] at hms
  | succ remaining ih =>
    intro i
    unfold micronucleus_reconnect_loop
    dsimp only
    split
    · rename_i hok
      refine ⟨by simp [reopenCount], ?_, ?_, ?_⟩
      · constructor
        · intro h; omega
        · intro h
          have := h 0 (by omega)
          simp at this
          rw [this] at hok
          cases hok
      · intro h; omega
      · intro ms hms; simp [List.mem_singleton] at hms
    · rename_i hok
      have hrec := ih (i + 1)
      refine ⟨?_, ?_, ?_, ?_⟩
      · simpa [reopenCount] using hrec.1
      · rw [show (EraseEvent.reopen i :: EraseEvent.delayMs 100 ::
          (micronucleus_reconnect_loop openOk remaining (i + 1)).2) =
          (EraseEvent.reopen i :: EraseEvent.delayMs 100 ::
          (micronucleus_reconnect_loop openOk remaining (i + 1)).2) from rfl]
        constructor
        · intro h j hj
          rcases Nat.eq_zero_or_pos j with hj0 | hjpos
          · subst hj0
            simpa using Bool.of_not_eq_true hok
          · have := (hrec.2.1.1 h) (j - 1) (by omega)
            rwa [show i + 1 + (j - 1) = i + j by omega] at this
        · intro h
          apply hrec.2.1.2
          intro j hj
          have := h (j + 1) (by omega)
          rwa [show i + (j + 1) = i + 1 + j by omega] at this
      · intro h
        have := hrec.2.2.1 h
        simp [reopenCount] at this ⊢
        omega
      · intro ms hms
        simp only [List.mem_cons] at hms
        rcases hms with hms | hms | hms
        · cases hms
        · cases hms; rfl
        · exact hrec.2.2.2 ms hms

/-- C8: the erase command's -EIO and -EPIPE results are tolerated — the call
still performs the post-erase erase_sleep delay and the connectivity probe,
and succeeds when the probe succeeds; any other negative erase result is
returned as fatal with no probe; and when the probe fails, reconnection
reopens the same device at most 25 times with the fixed 100 ms delay after
each failed attempt, the call failing only once all 25 attempts failed. -/
theorem C8_erase_error_tolerance (p : Pdata) (eraseResult checkResult : Int)
    (openOk : Nat → Bool) :
    (eraseResult = -5 ∨ eraseResult = -32 →
      EraseEvent.checkConn ∈ (micronucleus_erase_device p eraseResult checkResult openOk).2 ∧
      EraseEvent.delayMs p.erase_sleep ∈
        (micronucleus_erase_device p eraseResult checkResult openOk).2 ∧
      (0 ≤ checkResult →
        (micronucleus_erase_device p eraseResult checkResult openOk).1 = 0)) ∧
    (eraseResult < 0 → eraseResult ≠ -5 → eraseResult ≠ -32 →
      micronucleus_erase_device p eraseResult checkResult openOk =
        (eraseResult, [EraseEvent.eraseCmd])) ∧
    (¬(eraseResult < 0 ∧ eraseResult ≠ -5 ∧ eraseResult ≠ -32) → checkResult < 0 →
      (micronucleus_erase_device p eraseResult checkResult openOk).1 =
        (micronucleus_reconnect openOk).1) ∧
    reopenCount (micronucleus_reconnect openOk).2 ≤ 25 ∧
    ((micronucleus_reconnect openOk).1 < 0 ↔ ∀ j < 25, openOk j = false) ∧
    ((micronucleus_reconnect openOk).1 < 0 →
      reopenCount (micronucleus_reconnect openOk).2 = 25) ∧
    (∀ ms, EraseEvent.delayMs ms ∈ (micronucleus_reconnect openOk).2 → ms = 100) := by
  have hrec := reconnect_loop_spec openOk 25 0
  refine ⟨?_, ?_, ?_, hrec.1, ?_, hrec.2.2.1, hrec.2.2.2⟩
  · intro h
    have hcond : ¬(eraseResult < 0 ∧ eraseResult ≠ -5 ∧ eraseResult ≠ -32) := by
      rcases h with h | h <;> subst h <;> simp
    unfold micronucleus_erase_device
    rw [if_neg hcond]
    dsimp only
    split
    · rename_i hc
      exact ⟨by simp, by simp, fun hge => absurd hc (by omega)⟩
    · exact ⟨by simp, by simp, fun _ => rfl⟩
  · intro h1 h2 h3
    unfold micronucleus_erase_device
    rw [if_pos ⟨h1, h2, h3⟩]
  · intro hcond hcheck
    unfold micronucleus_erase_device
    rw [if_neg hcond]
    dsimp only
    rw [if_pos hcheck]
  · rw [show (micronucleus_reconnect openOk).1 =
      (micronucleus_reconnect_loop openOk 25 0).1 from rfl]
    rw [hrec.2.1]
    constructor
    · intro h j hj; simpa using h j hj
    · intro h j hj; simpa using h j hj

theorem C8_witness :
    EraseEvent.checkConn ∈
      (micronucleus_erase_device pdata0 (-32) (-1) (fun i => decide (i = 3))).2 ∧
    (micronucleus_erase_device pdata0 (-7) (-1) (fun i => decide (i = 3))) =
      (-7, [EraseEvent.eraseCmd]) ∧
    reopenCount (micronucleus_reconnect (fun i => decide (i = 3))).2 ≤ 25 :=
  have h := C8_erase_error_tolerance pdata0 (-32) (-1) (fun i => decide (i = 3))
  have h7 := C8_erase_error_tolerance pdata0 (-7) (-1) (fun i => decide (i = 3))
  ⟨(h.1 (Or.inr rfl)).1, h7.2.1 (by decide) (by decide) (by decide), h.2.2.2.1⟩

/-! Claim C7: session-state lifecycle. -/

/-- On sensible geometries the C address expression bootloader_start -
page_size equals the Nat subtraction. -/
theorem lastPageThreshold_eq (p : Pdata) (hB16 : p.bootloader_start < 65536)
    (hBP : p.page_size ≤ p.bootloader_start) :
    lastPageThreshold p = p.bootloader_start - p.page_size := by
  unfold lastPageThreshold
  rw [Int.emod_eq_of_lt (by omega) (by omega)]
  omega

/-- C7 (amended): for geometries with more than one page (bootloader_start >
page_size, the fields being in their C types' ranges): a successful write of
the page at address 0 sets both the pending-last-page and pending-start
flags; a write of the page at address bootloader_start - page_size clears the
pending-last-page flag; and powerdown, when pending-last-page is set,
synthesizes a 0xFF-filled page write to the final page (transmitting, under
V2, the user-vector-patched buffer) and, when pending-start is set, issues
the start command, after which both flags are false. -/
theorem C7_session_state_lifecycle (p : Pdata)
    (hBP : p.page_size < p.bootloader_start) (hB16 : p.bootloader_start < 65536) :
    (∀ (buf : List Nat) (sz : Nat), (micronucleus_write_page p 0 buf sz).1 = 0 →
      (micronucleus_write_page p 0 buf sz).2.1.write_last_page = true ∧
      (micronucleus_write_page p 0 buf sz).2.1.start_program = true) ∧
    (∀ (buf : List Nat) (sz : Nat),
      (micronucleus_write_page p (p.bootloader_start - p.page_size) buf
        sz).2.1.write_last_page = false) ∧
    (micronucleus_powerdown p).1.write_last_page = false ∧
    (micronucleus_powerdown p).1.start_program = false ∧
    (p.write_last_page = true →
      UsbEvent.xfer (p.bootloader_start - p.page_size) p.page_size
        (List.replicate p.page_size 0xFF)
        (if 2 ≤ p.major_version
         then micronucleus_patch_user_vector { p with write_last_page := false }
           (List.replicate p.page_size 0xFF)
         else List.replicate p.page_size 0xFF) ∈ (micronucleus_powerdown p).2) ∧
    (p.start_program = true → UsbEvent.startCmd ∈ (micronucleus_powerdown p).2) := by
  have hthr : lastPageThreshold p = p.bootloader_start - p.page_size :=
    lastPageThreshold_eq p hB16 (by omega)
  have hwp0 : ∀ (buf : List Nat) (sz : Nat), (micronucleus_write_page p 0 buf sz).1 = 0 →
      (micronucleus_write_page p 0 buf sz).2.1.write_last_page = true ∧
      (micronucleus_write_page p 0 buf sz).2.1.start_program = true := by
    intro buf sz hok
    unfold micronucleus_write_page at hok ⊢
    rw [if_pos rfl] at hok ⊢
    by_cases hmv : 2 ≤ p.major_version
    · rw [if_pos hmv] at hok ⊢
      cases hpr : micronucleus_patch_reset_vector p buf with
      | none => rw [hpr] at hok; simp at hok
      | some pr => exact ⟨rfl, rfl⟩
    · rw [if_neg hmv]
      exact ⟨rfl, rfl⟩
  have hwplast : ∀ (buf : List Nat) (sz : Nat),
      (micronucleus_write_page p (p.bootloader_start - p.page_size) buf
        sz).2.1.write_last_page = false := by
    intro buf sz
    unfold micronucleus_write_page
    rw [if_neg (by omega), if_pos (le_of_eq hthr)]
  refine ⟨hwp0, hwplast, ?_⟩
  unfold micronucleus_powerdown
  dsimp only
  by_cases hwlp : p.write_last_page = true
  · rw [if_pos hwlp]
    have hthr1 : lastPageThreshold { p with write_last_page := false } =
        p.bootloader_start - p.page_size := by
      rw [lastPageThreshold_eq _ (by simpa using hB16) (by simp; omega)]
    set p1 : Pdata := { p with write_last_page := false } with hp1
    have hbuf : List.replicate p1.page_size 0xFF = List.replicate p.page_size 0xFF := rfl
    have hxfer : micronucleus_write_page p1 (lastPageThreshold p1)
        (List.replicate p1.page_size 0xFF) p1.page_size =
        (0, { p1 with write_last_page := false },
          [UsbEvent.xfer (lastPageThreshold p1) p1.page_size
            (List.replicate p1.page_size 0xFF)
            (if 2 ≤ p1.major_version
             then micronucleus_patch_user_vector p1 (List.replicate p1.page_size 0xFF)
             else List.replicate p1.page_size 0xFF)]) := by
      unfold micronucleus_write_page
      rw [if_neg (by rw [hthr1]; omega), if_pos (le_refl _)]
    rw [hxfer]
    dsimp only
    by_cases hsp : p.start_program = true
    · rw [if_pos (by simpa [p1] using hsp)]
      refine ⟨rfl, rfl, ?_, ?_⟩
      · intro _
        rw [hthr1]
        simp [p1]
      · intro _
        simp
    · rw [if_neg (by simpa [p1] using hsp)]
      refine ⟨rfl, by simpa [p1] using hsp, ?_, ?_⟩
      · intro _
        rw [hthr1]
        simp [p1]
      · intro hsp2
        exact absurd hsp2 hsp
  · rw [if_neg hwlp]
    dsimp only
    by_cases hsp : p.start_program = true
    · rw [if_pos hsp]
      refine ⟨by simpa using hwlp, rfl, ?_, by simp⟩
      intro hwlp2
      exact absurd hwlp2 hwlp
    · rw [if_neg hsp]
      refine ⟨by simpa using hwlp, by simpa using hsp, ?_, ?_⟩
      · intro hwlp2
        exact absurd hwlp2 hwlp
      · intro hsp2
        exact absurd hsp2 hsp

def pC7 : Pdata :=
  { pdata0 with
      major_version := 1, page_size := 64, bootloader_start := 64,
      flash_size := 64, write_last_page := true, start_program := true }

/-- C7 as stated fails on single-page geometries: with bootloader_start =
page_size = 64 under V1 and both flags set, the final-page write synthesized
by powerdown is at address 0, which re-enters the page-0 branch and sets the
flags again, so pending-last-page is still set after the powerdown completes
successfully. -/
theorem C7_counterexample :
    ¬((micronucleus_powerdown pC7).1.write_last_page = false ∧
      (micronucleus_powerdown pC7).1.start_program = false) := by decide

def pC7w : Pdata :=
  { pdata0 with
      major_version := 2, page_size := 64, bootloader_start := 4096,
      flash_size := 4096, user_reset_vector := 0x123,
      write_last_page := true, start_program := true }

theorem C7_witness :
    pC7w.page_size < pC7w.bootloader_start ∧
    (micronucleus_powerdown pC7w).1.write_last_page = false ∧
    (micronucleus_powerdown pC7w).1.start_program = false ∧
    UsbEvent.startCmd ∈ (micronucleus_powerdown pC7w).2 :=
  have h := C7_session_state_lifecycle pC7w (by decide) (by decide)
  ⟨by decide, h.2.2.1, h.2.2.2.1, h.2.2.2.2.2 rfl⟩

/-! Claim C5: paged-write chunking. -/

theorem micronucleus_paged_write_loop_zero (fuel : Nat) (p : Pdata) (mem : List Nat)
    (addr : Nat) : micronucleus_paged_write_loop fuel p mem addr 0 = (0, p, []) := by
  cases fuel <;> rfl

theorem handedBytes_of_uniform (P : Nat) :
    ∀ events : List UsbEvent,
      (∀ e ∈ events, ∃ a handed sent, e = UsbEvent.xfer a P handed sent ∧
        handed.length = P ∧ sent.length = P) →
      handedBytes events = events.length * P := by
  intro events
  induction events with
  | nil => intro _; simp [handedBytes]
  | cons e es ih =>
    intro h
    obtain ⟨a, handed, sent, he, hh, _⟩ := h e (List.mem_cons_self e es)
    subst he
    rw [show handedBytes (UsbEvent.xfer a P handed sent :: es) =
      handed.length + handedBytes es from rfl]
    rw [ih (fun e2 he2 => h e2 (List.mem_cons_of_mem _ he2)), hh]
    simp [List.length_cons]
    ring

theorem paged_write_loop_spec :
    ∀ (fuel : Nat) (p : Pdata) (mem : List Nat) (addr n : Nat),
      0 < p.page_size → n ≤ fuel → addr + n ≤ mem.length →
      (micronucleus_paged_write_loop fuel p mem addr n).1 = 0 →
      ((micronucleus_paged_write_loop fuel p mem addr n).2.2 = [] ↔ n = 0) ∧
      (0 < n → ((micronucleus_paged_write_loop fuel p mem addr n).2.2).length =
        (n - 1) / p.page_size + 1) ∧
      (∀ e ∈ (micronucleus_paged_write_loop fuel p mem addr n).2.2,
        ∃ a handed sent, e = UsbEvent.xfer a p.page_size handed sent ∧
          handed.length = p.page_size ∧ sent.length = p.page_size) ∧
      (n % p.page_size ≠ 0 →
        ∃ a sent pre,
          ((micronucleus_paged_write_loop fuel p mem addr n).2.2).getLast? =
            some (UsbEvent.xfer a p.page_size
              (pre ++ List.replicate (p.page_size - n % p.page_size) 0xFF) sent)) := by
  intro fuel
  induction fuel with
  | zero =>
    intro p mem addr n hP hfuel hmem hok
    have hn : n = 0 := by omega
    subst hn
    rw [micronucleus_paged_write_loop_zero]
    refine ⟨by simp, fun h => absurd h (by omega), ?_, ?_⟩
    · intro e he; simp at he
    · intro h; simp at h
  | succ fuel ih =>
    intro p mem addr n hP hfuel hmem hok
    by_cases hn : n = 0
    · subst hn
      rw [micronucleus_paged_write_loop_zero]
      refine ⟨by simp, fun h => absurd h (by omega), ?_, ?_⟩
      · intro e he; simp at he
      · intro h; simp at h
    · unfold micronucleus_paged_write_loop at hok ⊢
      rw [if_neg hn] at hok ⊢
      dsimp only at hok ⊢
      set chunk := min n p.page_size with hchunk
      set page_buffer := (mem.drop addr).take chunk ++
        List.replicate (p.page_size - chunk) 0xFF with hpb
      have hchunkpos : 0 < chunk := by
        rw [hchunk]; omega
      have hchunkle : chunk ≤ n := by rw [hchunk]; omega
      have hchunkP : chunk ≤ p.page_size := by rw [hchunk]; omega
      have hpblen : page_buffer.length = p.page_size := by
        rw [hpb]
        simp only [List.length_append, List.length_take, List.length_drop,
          List.length_replicate]
        omega
      rcases micronucleus_write_page_shape p addr page_buffer p.page_size with
        hfail | ⟨p2, sent, hsucc, hgeom, hslen⟩
      · rw [hfail] at hok
        norm_num at hok
      · rw [hsucc] at hok ⊢
        rw [if_neg (by norm_num)] at hok ⊢
        dsimp only at hok ⊢
        have hpage2 : p2.page_size = p.page_size := congrArg (fun t => t.2.1) hgeom
        have ihh := ih p2 mem (addr + chunk) (n - chunk) (by rw [hpage2]; exact hP)
          (by omega) (by omega) hok
        rw [hpage2] at ihh
        set restev := (micronucleus_paged_write_loop fuel p2 mem (addr + chunk)
          (n - chunk)).2.2 with hrest
        refine ⟨by simp [hn], ?_, ?_, ?_⟩
        · intro _
          rcases Nat.lt_or_ge n (p.page_size + 1) with hle | hgt
          · have hce : chunk = n := by rw [hchunk]; omega
            have hre : restev = [] := ihh.1.mpr (by omega)
            rw [hre]
            have : (n - 1) / p.page_size = 0 := Nat.div_eq_of_lt (by omega)
            simp [this]
          · have hce : chunk = p.page_size := by rw [hchunk]; omega
            have hlen2 := ihh.2.1 (by omega)
            simp only [List.length_append, List.length_cons, List.length_nil, hlen2]
            have h1 : n - 1 = (n - chunk - 1) + p.page_size := by omega
            rw [h1, Nat.add_div_right _ hP]
            omega
        · intro e he
          simp only [List.mem_append, List.mem_singleton] at he
          rcases he with he | he
          · subst he
            exact ⟨addr, page_buffer, sent, rfl, hpblen, hslen.trans hpblen⟩
          · exact ihh.2.2.1 e he
        · intro hmod
          rcases Nat.lt_or_ge n (p.page_size + 1) with hle | hgt
          · have hce : chunk = n := by rw [hchunk]; omega
            have hre : restev = [] := ihh.1.mpr (by omega)
            rw [hre]
            have hne : n ≠ p.page_size := by
              intro hcontra
              exact hmod (by rw [hcontra, Nat.mod_self])
            have hmn : n % p.page_size = n := Nat.mod_eq_of_lt (by omega)
            refine ⟨addr, sent, (mem.drop addr).take chunk, ?_⟩
            rw [show ([UsbEvent.xfer addr p.page_size page_buffer sent] ++
              ([] : List UsbEvent)).getLast? =
              some (UsbEvent.xfer addr p.page_size page_buffer sent) by simp]
            rw [hpb, hmn, hce]
          · have hce : chunk = p.page_size := by rw [hchunk]; omega
            have hmodeq : (n - chunk) % p.page_size = n % p.page_size := by
              have h2 : n - chunk + p.page_size = n := by omega
              rw [← Nat.add_mod_right (n - chunk) p.page_size, h2]
            obtain ⟨a, sent2, pre, hlast⟩ := ihh.2.2.2 (by rw [hmodeq]; exact hmod)
            refine ⟨a, sent2, pre, ?_⟩
            rw [List.getLast?_append, hlast]
            rw [hmodeq] at hlast
            rw [hmodeq]
            rfl

/-- C5 (amended): a flash paged_write with positive buffer size S that passes
the bounds checks, over a session with nonzero device-reported page size P and
a flash-sized memory buffer, and whose page writes all succeed — the call
returns success; under V2 a failing page-0 reset-vector patch aborts the loop
early — transmits exactly ceil(S/P) chunks, each exactly P bytes long, pads
the final partial chunk to length P with fill byte 0xFF, and hands
ceil(S/P) * P bytes in total to the page-write routine. -/
theorem C5_paged_write_chunking (p : Pdata) (mem : List Nat)
    (page_size addr n_bytes : Nat) (hn : 0 < n_bytes) (hP : 0 < p.page_size)
    (hmem : p.flash_size ≤ mem.length) (hsz : ¬n_bytes > page_size)
    (hfl : ¬addr + n_bytes > p.flash_size)
    (hok : (micronucleus_paged_write p mem page_size addr n_bytes).1 = 0) :
    ((micronucleus_paged_write p mem page_size addr n_bytes).2.2).length =
      (n_bytes + p.page_size - 1) / p.page_size ∧
    (∀ e ∈ (micronucleus_paged_write p mem page_size addr n_bytes).2.2,
      ∃ a handed sent, e = UsbEvent.xfer a p.page_size handed sent ∧
        handed.length = p.page_size ∧ sent.length = p.page_size) ∧
    (n_bytes % p.page_size ≠ 0 →
      ∃ a sent pre,
        ((micronucleus_paged_write p mem page_size addr n_bytes).2.2).getLast? =
          some (UsbEvent.xfer a p.page_size
            (pre ++ List.replicate (p.page_size - n_bytes % p.page_size) 0xFF) sent)) ∧
    handedBytes (micronucleus_paged_write p mem page_size addr n_bytes).2.2 =
      ((n_bytes + p.page_size - 1) / p.page_size) * p.page_size := by
  have hred : micronucleus_paged_write p mem page_size addr n_bytes =
      micronucleus_paged_write_loop n_bytes p mem addr n_bytes := by
    unfold micronucleus_paged_write
    rw [if_neg hsz,
      if_neg (show ¬(addr + n_bytes) % 4294967296 > p.flash_size by omega)]
  rw [hred] at hok ⊢
  have hceil : (n_bytes + p.page_size - 1) / p.page_size =
      (n_bytes - 1) / p.page_size + 1 := by
    have h1 : n_bytes + p.page_size - 1 = (n_bytes - 1) + p.page_size := by omega
    rw [h1, Nat.add_div_right _ hP]
  have hspec := paged_write_loop_spec n_bytes p mem addr n_bytes hP (le_refl _)
    (by omega) hok
  refine ⟨by rw [hceil]; exact hspec.2.1 hn, hspec.2.2.1, hspec.2.2.2, ?_⟩
  rw [handedBytes_of_uniform p.page_size _ hspec.2.2.1, hceil, hspec.2.1 hn]

def pC5 : Pdata :=
  { pdata0 with major_version := 2, page_size := 4, flash_size := 100 }

/-- C5 as stated fails when a page write fails mid-call: under V2, a
paged_write starting at address 0 whose first word is not a branch
instruction passes both bounds checks (S = 8 with caller page size 8 and
flash size 100) but aborts in the reset-vector patch, so zero chunks are
transmitted although ceil(S/P) = ceil(8/4) = 2. -/
theorem C5_counterexample :
    micronucleus_paged_write pC5 (List.replicate 8 0) 8 0 8 = (-1, pC5, []) ∧
    (8 + pC5.page_size - 1) / pC5.page_size = 2 := by decide

def pC5w : Pdata :=
  { pdata0 with major_version := 1, page_size := 4, flash_size := 16 }

theorem C5_witness :
    ((0 : Nat) < 10 ∧ (0 : Nat) < pC5w.page_size ∧
      pC5w.flash_size ≤ (List.replicate 16 7).length ∧ ¬(10 : Nat) > 16 ∧
      ¬(0 + 10 : Nat) > pC5w.flash_size ∧
      (micronucleus_paged_write pC5w (List.replicate 16 7) 16 0 10).1 = 0) ∧
    ((micronucleus_paged_write pC5w (List.replicate 16 7) 16 0 10).2.2).length =
      (10 + pC5w.page_size - 1) / pC5w.page_size ∧
    handedBytes (micronucleus_paged_write pC5w (List.replicate 16 7) 16 0 10).2.2 =
      ((10 + pC5w.page_size - 1) / pC5w.page_size) * pC5w.page_size :=
  have h := C5_paged_write_chunking pC5w (List.replicate 16 7) 16 0 10 (by decide)
    (by decide) (by decide) (by decide) (by decide) (by decide)
  ⟨⟨by decide, by decide, by decide, by decide, by decide, by decide⟩, h.1, h.2.2.2⟩

/-! Claim C1: reset-vector round trip. -/

theorem byteAt_lt (buffer : List Nat) (i : Nat) : byteAt buffer i < 256 :=
  Nat.mod_lt _ (by norm_num)

/-- Page-0 patch below the long-jump threshold: when bootloader_start is at
most 0x2000 and the first word decodes as a branch with target v, the patch
captures v and writes a relative-jump word (top nibble 0xC) into the first
two bytes. -/
theorem patch_reset_vector_rjmp (p : Pdata) (page0 : List Nat) (v : Nat)
    (hBle : p.bootloader_start ≤ 0x2000)
    (hv : decode_branch 0 (byteAt page0 1 * 256 + byteAt page0 0)
      (byteAt page0 3 * 256 + byteAt page0 2) = some v) :
    ∃ buf2, micronucleus_patch_reset_vector p page0 =
        some ({ p with user_reset_vector := v }, buf2) ∧
      (byteAt buf2 1 * 256 + byteAt buf2 0) &&& 0xF000 = 0xC000 := by
  have h2len : byteAt page0 1 * 256 + byteAt page0 0 ≥ 256 → 2 ≤ page0.length := by
    intro hw
    by_contra hcon
    have hb1 : byteAt page0 1 = 0 := byteAt_out_of_range _ _ (by omega)
    have hb0 := byteAt_lt page0 0
    omega
  have hk0 : (0 : Int) ≤ ((p.bootloader_start : Int) / 2 - 1) % 4096 :=
    Int.emod_nonneg _ (by norm_num)
  have hk1 : ((p.bootloader_start : Int) / 2 - 1) % 4096 < 4096 :=
    Int.emod_lt_of_pos _ (by norm_num)
  have hklt : ((((p.bootloader_start : Int) / 2 - 1) % 4096).toNat) < 4096 := by omega
  unfold decode_branch at hv
  unfold micronucleus_patch_reset_vector
  dsimp only
  by_cases h1 : byteAt page0 1 * 256 + byteAt page0 0 = 0x940C
  · rw [if_pos h1] at hv ⊢
    have hlen2 : 2 ≤ page0.length := h2len (by omega)
    have hveq : byteAt page0 3 * 256 + byteAt page0 2 = v := by
      simpa using hv
    rw [hveq]
    dsimp only
    rw [if_neg (show ¬p.bootloader_start > 0x2000 by omega)]
    refine ⟨_, rfl, ?_⟩
    rw [byteAt, byteAt, getD_set_self _ _ _ _ (by simp [List.length_set]; omega),
      getD_set_ne _ _ _ _ _ (by omega), getD_set_self _ _ _ _ (by omega)]
    have hword : ((0xC000 + (((p.bootloader_start : Int) / 2 - 1) % 4096).toNat) / 256 % 256)
        % 256 * 256 +
        ((0xC000 + (((p.bootloader_start : Int) / 2 - 1) % 4096).toNat) % 256) % 256 =
        0xC000 + (((p.bootloader_start : Int) / 2 - 1) % 4096).toNat := by
      omega
    rw [hword]
    exact mask_top _ hklt
  · rw [if_neg h1] at hv ⊢
    by_cases h2 : (byteAt page0 1 * 256 + byteAt page0 0) &&& 0xF000 = 0xC000
    · rw [if_pos h2] at hv ⊢
      have hwge : byteAt page0 1 * 256 + byteAt page0 0 ≥ 256 := by
        by_contra hcon
        have := Nat.and_le_left (n := byteAt page0 1 * 256 + byteAt page0 0) (m := 0xF000)
        omega
      have hlen2 : 2 ≤ page0.length := h2len hwge
      have hveq : ((byteAt page0 1 * 256 + byteAt page0 0) &&& 0x0FFF) + 1 = v := by
        rw [Nat.zero_add] at hv
        simpa using hv
      rw [hveq]
      dsimp only
      rw [if_neg (show ¬p.bootloader_start > 0x2000 by omega)]
      refine ⟨_, rfl, ?_⟩
      rw [byteAt, byteAt, getD_set_self _ _ _ _ (by simp [List.length_set]; omega),
        getD_set_ne _ _ _ _ _ (by omega), getD_set_self _ _ _ _ (by omega)]
      have hword : ((0xC000 + (((p.bootloader_start : Int) / 2 - 1) % 4096).toNat) / 256 % 256)
          % 256 * 256 +
          ((0xC000 + (((p.bootloader_start : Int) / 2 - 1) % 4096).toNat) % 256) % 256 =
          0xC000 + (((p.bootloader_start : Int) / 2 - 1) % 4096).toNat := by
        omega
      rw [hword]
      exact mask_top _ hklt
    · rw [if_neg h2] at hv
      simp at hv

/-- Last-page patch below the long-jump threshold: for geometries with
page_size at least 4, bootloader_start at most 0x2004 (so the patch-back is a
relative jump) and a page-sized buffer, the patch writes a relative-jump word
at byte offset bootloader_start - 4 within the page (index page_size - 4)
whose decoding at word address (bootloader_start - 4) / 2 restores the
captured user reset vector modulo 2^12. -/
theorem patch_user_vector_rjmp (p : Pdata) (last : List Nat)
    (hP4 : 4 ≤ p.page_size) (hlen : last.length = p.page_size)
    (hB1 : p.page_size + 4 ≤ p.bootloader_start)
    (hB2 : p.bootloader_start ≤ 0x2004) :
    (byteAt (micronucleus_patch_user_vector p last) (p.page_size - 4 + 1) * 256 +
      byteAt (micronucleus_patch_user_vector p last) (p.page_size - 4)) &&& 0xF000 =
      0xC000 ∧
    ∃ t, decode_branch ((p.bootloader_start - 4) / 2)
        (byteAt (micronucleus_patch_user_vector p last) (p.page_size - 4 + 1) * 256 +
          byteAt (micronucleus_patch_user_vector p last) (p.page_size - 4)) 0 =
        some t ∧
      t % 4096 = p.user_reset_vector % 4096 := by
  have hura : (p.bootloader_start + 65536 - 4) % 65536 = p.bootloader_start - 4 := by
    omega
  have haddr : (p.bootloader_start + 65536 - p.page_size) % 65536 =
      p.bootloader_start - p.page_size := by omega
  have hk0 : (0 : Int) ≤ ((p.user_reset_vector : Int) -
      (((p.bootloader_start - 4) / 2 : Nat) : Int) - 1) % 4096 :=
    Int.emod_nonneg _ (by norm_num)
  have hk1 : ((p.user_reset_vector : Int) -
      (((p.bootloader_start - 4) / 2 : Nat) : Int) - 1) % 4096 < 4096 :=
    Int.emod_lt_of_pos _ (by norm_num)
  have hklt : (((p.user_reset_vector : Int) -
      (((p.bootloader_start - 4) / 2 : Nat) : Int) - 1) % 4096).toNat < 4096 := by
    omega
  unfold micronucleus_patch_user_vector
  dsimp only
  rw [hura, haddr]
  rw [if_neg (show ¬p.bootloader_start - 4 > 0x2000 by omega)]
  rw [show p.bootloader_start - 4 - (p.bootloader_start - p.page_size) =
    p.page_size - 4 by omega]
  rw [byteAt, byteAt,
    getD_set_self _ _ _ _ (by simp [List.length_set]; omega),
    getD_set_ne _ _ _ _ _ (by omega), getD_set_self _ _ _ _ (by omega)]
  have hword : ((0xC000 + (((p.user_reset_vector : Int) -
      (((p.bootloader_start - 4) / 2 : Nat) : Int) - 1) % 4096).toNat) / 256 % 256)
      % 256 * 256 +
      ((0xC000 + (((p.user_reset_vector : Int) -
      (((p.bootloader_start - 4) / 2 : Nat) : Int) - 1) % 4096).toNat) % 256) % 256 =
      0xC000 + (((p.user_reset_vector : Int) -
      (((p.bootloader_start - 4) / 2 : Nat) : Int) - 1) % 4096).toNat := by
    omega
  rw [hword]
  refine ⟨mask_top _ hklt, ?_⟩
  unfold decode_branch
  rw [if_neg (by omega), if_pos (mask_top _ hklt), mask_low]
  refine ⟨_, rfl, ?_⟩
  have hkn : ((0xC000 + (((p.user_reset_vector : Int) -
      (((p.bootloader_start - 4) / 2 : Nat) : Int) - 1) % 4096).toNat) % 4096) =
      (((p.user_reset_vector : Int) -
      (((p.bootloader_start - 4) / 2 : Nat) : Int) - 1) % 4096).toNat := by
    omega
  rw [hkn]
  omega

/-- C1 (amended): for every page-0 buffer whose first word is a long jump
(0x940C plus target word) or a relative jump (top nibble 0xC), and for
bootloader_start exactly 0x2000 or 0x2000 - 1 (page_size in its uint8_t range
and at least 4, the last page a buffer of page_size bytes), patching page 0
captures the user reset vector v and selects the relative-jump encoding, and
patching the last page writes at byte offset bootloader_start - 4 within that
page (index page_size - 4) a relative jump — the same selection as the page-0
patch — that, decoded by the same instruction-decode rule at that word
address, yields the captured vector modulo 2^12: the 12-bit relative-jump
offset can only restore the vector mod 4096, and exact equality fails for
vectors outside that range. -/
theorem C1_reset_vector_round_trip (p : Pdata) (page0 last : List Nat) (v : Nat)
    (hB : p.bootloader_start = 0x2000 ∨ p.bootloader_start = 0x1FFF)
    (hP4 : 4 ≤ p.page_size) (hP8 : p.page_size < 256)
    (hlen : last.length = p.page_size)
    (hv : decode_branch 0 (byteAt page0 1 * 256 + byteAt page0 0)
      (byteAt page0 3 * 256 + byteAt page0 2) = some v) :
    ∃ buf2, micronucleus_patch_reset_vector p page0 =
        some ({ p with user_reset_vector := v }, buf2) ∧
      (byteAt buf2 1 * 256 + byteAt buf2 0) &&& 0xF000 = 0xC000 ∧
      (byteAt (micronucleus_patch_user_vector { p with user_reset_vector := v } last)
          (p.page_size - 4 + 1) * 256 +
        byteAt (micronucleus_patch_user_vector { p with user_reset_vector := v } last)
          (p.page_size - 4)) &&& 0xF000 = 0xC000 ∧
      ∃ t, decode_branch ((p.bootloader_start - 4) / 2)
          (byteAt (micronucleus_patch_user_vector { p with user_reset_vector := v } last)
              (p.page_size - 4 + 1) * 256 +
            byteAt (micronucleus_patch_user_vector { p with user_reset_vector := v } last)
              (p.page_size - 4)) 0 = some t ∧
        t % 4096 = v % 4096 := by
  obtain ⟨buf2, heq, hmask⟩ := patch_reset_vector_rjmp p page0 v (by omega) hv
  have hupv := patch_user_vector_rjmp { p with user_reset_vector := v } last
    hP4 hlen (by simp; omega) (by simp; omega)
  exact ⟨buf2, heq, hmask, hupv.1, hupv.2⟩

def pC1 : Pdata := { pdata0 with bootloader_start := 0x2000, page_size := 64 }

/-- C1 as stated is false: with bootloader_start = 0x2000 and page_size 64,
capturing the long jump to word address 0x2000 from page 0 and then patching
the last page writes the relative-jump word 0xC001 at byte offset 60 of the
final page, and decoding it at word address 0xFFE yields 0x1000, not the
captured vector 0x2000 — the relative-jump patch-back restores the vector
only modulo 2^12. -/
theorem C1_counterexample :
    ∃ pr, micronucleus_patch_reset_vector pC1 [0x0C, 0x94, 0x00, 0x20] = some pr ∧
      pr.1.user_reset_vector = 0x2000 ∧
      decode_branch ((pC1.bootloader_start - 4) / 2)
        (byteAt (micronucleus_patch_user_vector pr.1 (List.replicate 64 0xFF)) 61 * 256 +
          byteAt (micronucleus_patch_user_vector pr.1 (List.replicate 64 0xFF)) 60) 0 =
        some 0x1000 ∧
      (0x1000 : Nat) ≠ pr.1.user_reset_vector := by decide

theorem C1_witness :
    decode_branch 0 (byteAt [0x00, 0xC0, 0x00, 0x00] 1 * 256 +
        byteAt [0x00, 0xC0, 0x00, 0x00] 0)
      (byteAt [0x00, 0xC0, 0x00, 0x00] 3 * 256 +
        byteAt [0x00, 0xC0, 0x00, 0x00] 2) = some 1 ∧
    (∃ buf2, micronucleus_patch_reset_vector pC1 [0x00, 0xC0, 0x00, 0x00] =
        some ({ pC1 with user_reset_vector := 1 }, buf2) ∧
      (byteAt buf2 1 * 256 + byteAt buf2 0) &&& 0xF000 = 0xC000 ∧
      (byteAt (micronucleus_patch_user_vector { pC1 with user_reset_vector := 1 }
            (List.replicate 64 0xFF)) (pC1.page_size - 4 + 1) * 256 +
        byteAt (micronucleus_patch_user_vector { pC1 with user_reset_vector := 1 }
            (List.replicate 64 0xFF)) (pC1.page_size - 4)) &&& 0xF000 = 0xC000 ∧
      ∃ t, decode_branch ((pC1.bootloader_start - 4) / 2)
          (byteAt (micronucleus_patch_user_vector { pC1 with user_reset_vector := 1 }
                (List.replicate 64 0xFF)) (pC1.page_size - 4 + 1) * 256 +
            byteAt (micronucleus_patch_user_vector { pC1 with user_reset_vector := 1 }
                (List.replicate 64 0xFF)) (pC1.page_size - 4)) 0 = some t ∧
        t % 4096 = 1 % 4096) :=
  ⟨by decide, C1_reset_vector_round_trip pC1 [0x00, 0xC0, 0x00, 0x00]
    (List.replicate 64 0xFF) 1 (Or.inl rfl) (by decide) (by decide) (by decide)
    (by decide)⟩
